import Mathlib

/-!
Shallow embedding of the pointer concept instances of `include/ftl/memory.h`:
the `monoid`, `monad`, `monoidA` and `foldable` instances for
`std::shared_ptr<T>` and `std::unique_ptr<T>`.

Two layers are used:

* a value layer, where an optional owned pointer is `Option T` (`none` is the
  null pointer, `some x` a pointer whose pointee holds the value `x`); this
  captures the functional behaviour of every operation;
* a heap layer, where a pointer is an `Option Nat` holding an index into a
  heap `List T`; allocation (`make_shared`, `new T`) appends a cell at the end
  of the list, writing through a pointer is `List.set`, and moving a
  `unique_ptr` voids the source.  Operations on `unique_ptr` also report the
  final state of their pointer arguments, so that move semantics can be
  stated.  Moving a pointee of a value type leaves the old cell holding its
  former value (the moved-from state of a trivially movable value).
-/

namespace FTLMem

variable {T U A B : Type}

/-! ## Value layer -/

/-- Value semantics of `monoid<std::shared_ptr<T>>::id`: the null pointer. -/
def sharedId (T : Type) : Option T := none

/-- Value semantics of `monoid<std::unique_ptr<T>>::id`: the null pointer. -/
def uniqueId (T : Type) : Option T := none

/-- Value semantics of `monoid<std::shared_ptr<T>>::append`: combine both
pointees with `make_shared` when both pointers are non-null, otherwise return
the non-null side (or null). -/
def sharedAppend (app : T → T → T) : Option T → Option T → Option T
  | some x, some y => some (app x y)
  | some x, none => some x
  | none, b => b

/-- Value semantics of the `(const&, const&)` overload of
`monoid<std::unique_ptr<T>>::append`: `make` on both pointees, else `dup` of
the single non-null side, else `id()`. -/
def uniqueAppendLLv (app : T → T → T) : Option T → Option T → Option T
  | some x, some y => some (app x y)
  | some x, none => some x
  | none, some y => some y
  | none, none => none

/-- Value semantics of the `(&&, const&)` overload of
`monoid<std::unique_ptr<T>>::append`: write the combination into `a`'s cell
and move `a` out when both are non-null; `dup(b)` when only `b` is non-null;
otherwise move `a` out. -/
def uniqueAppendRLv (app : T → T → T) : Option T → Option T → Option T
  | some x, some y => some (app x y)
  | none, some y => some y
  | a, none => a

/-- Value semantics of the `(const&, &&)` overload of
`monoid<std::unique_ptr<T>>::append`. -/
def uniqueAppendLRv (app : T → T → T) : Option T → Option T → Option T
  | some x, some y => some (app x y)
  | some x, none => some x
  | none, b => b

/-- Value semantics of the `(&&, &&)` overload of
`monoid<std::unique_ptr<T>>::append`. -/
def uniqueAppendRRv (app : T → T → T) : Option T → Option T → Option T
  | some x, some y => some (app x y)
  | some x, none => some x
  | none, b => b

/-- Value semantics of `monad<std::shared_ptr<T>>::map`: apply `f` to the
pointee and allocate the result with `make_shared`, or return null. -/
def sharedMap (f : T → U) : Option T → Option U
  | some x => some (f x)
  | none => none

/-- Value semantics of `monad<std::shared_ptr<T>>::bind`: pass the pointee to
`f` and return `f`'s result unchanged, or return null. -/
def sharedBind : Option T → (T → Option U) → Option U
  | some x, f => f x
  | none, _ => none

/-- Value semantics of the `const&` overload of
`monad<std::unique_ptr<T>>::map`: apply `f` to the (moved-out) pointee and
allocate the result, or return null. -/
def uniqueMap (f : T → U) : Option T → Option U
  | some x => some (f x)
  | none => none

/-- Value semantics of `monad<std::unique_ptr<T>>::bind`: pass the moved-out
pointee to `f` and return `f`'s result unchanged, or return null. -/
def uniqueBind : Option T → (T → Option U) → Option U
  | some x, f => f x
  | none, _ => none

/-- Modelled from the spec: `deriving_join` of `concepts/monad.h` (not under
`src/`) instantiated for `shared_ptr`; `join(outer)` is `bind(outer,
identity)`. -/
def sharedJoin (outer : Option (Option T)) : Option T :=
  sharedBind outer (fun m => m)

/-- Modelled from the spec: `deriving_apply` of `concepts/monad.h` (not under
`src/`) instantiated for `shared_ptr`; `apply(wf, wa)` is `bind(wf, \fn ->
map(fn, wa))`. -/
def sharedApply (wf : Option (A → B)) (wa : Option A) : Option B :=
  sharedBind wf (fun g => sharedMap g wa)

/-- Modelled from the spec: `deriving_join` of `concepts/monad.h` (not under
`src/`) instantiated for `unique_ptr`. -/
def uniqueJoin (outer : Option (Option T)) : Option T :=
  uniqueBind outer (fun m => m)

/-- Modelled from the spec: `deriving_apply` of `concepts/monad.h` (not under
`src/`) instantiated for `unique_ptr`. -/
def uniqueApply (wf : Option (A → B)) (wa : Option A) : Option B :=
  uniqueBind wf (fun g => uniqueMap g wa)

/-- Value semantics of `monoidA<std::shared_ptr<T>>::fail`: the null
pointer. -/
def sharedFail (T : Type) : Option T := none

/-- Value semantics of `monoidA<std::unique_ptr<T>>::fail`: the null
pointer. -/
def uniqueFail (T : Type) : Option T := none

/-- Value semantics of `monoidA<std::shared_ptr<T>>::orDo`: `a` when non-null,
else `b`. -/
def sharedOrDo : Option T → Option T → Option T
  | some x, _ => some x
  | none, b => b

/-- Value semantics of `monoidA<std::unique_ptr<T>>::orDo`:
`a ? dup_unique(a) : dup_unique(b)`; duplication copies the pointee's value
and `dup_unique` of a null pointer is null. -/
def uniqueOrDo : Option T → Option T → Option T
  | some x, _ => some x
  | none, b => b

/-- Value semantics of `foldable<std::shared_ptr<T>>::foldl`: the call is
`fn(z, *p)` when `p` is non-null, else `z`. -/
def sharedFoldl (fn : U → T → U) (z : U) : Option T → U
  | some x => fn z x
  | none => z

/-- Value semantics of `foldable<std::shared_ptr<T>>::foldr`: the body also
calls `fn(z, *p)` (the template constraint names `Fn(T,U)`, but the actual
call passes the seed first). -/
def sharedFoldr (fn : U → T → U) (z : U) : Option T → U
  | some x => fn z x
  | none => z

/-- Value semantics of `foldable<std::unique_ptr<T>>::foldl`. -/
def uniqueFoldl (fn : U → T → U) (z : U) : Option T → U
  | some x => fn z x
  | none => z

/-- Value semantics of `foldable<std::unique_ptr<T>>::foldr` (same
`fn(z, *p)` call as `foldl`). -/
def uniqueFoldr (fn : U → T → U) (z : U) : Option T → U
  | some x => fn z x
  | none => z

/-- The decision table of spec section 4.1, written from the spec's words:
empty is the identity, and two non-empty values combine their pointees. -/
def specAppendTable (app : T → T → T) : Option T → Option T → Option T
  | none, none => none
  | some x, none => some x
  | none, some y => some y
  | some x, some y => some (app x y)

/-! ## Table lemmas shared between claims -/

theorem sharedAppend_eq_table (app : T → T → T) (a b : Option T) :
    sharedAppend app a b = specAppendTable app a b := by
  cases a <;> cases b <;> rfl

theorem uniqueAppendLLv_eq_table (app : T → T → T) (a b : Option T) :
    uniqueAppendLLv app a b = specAppendTable app a b := by
  cases a <;> cases b <;> rfl

theorem uniqueAppendRLv_eq_table (app : T → T → T) (a b : Option T) :
    uniqueAppendRLv app a b = specAppendTable app a b := by
  cases a <;> cases b <;> rfl

theorem uniqueAppendLRv_eq_table (app : T → T → T) (a b : Option T) :
    uniqueAppendLRv app a b = specAppendTable app a b := by
  cases a <;> cases b <;> rfl

theorem uniqueAppendRRv_eq_table (app : T → T → T) (a b : Option T) :
    uniqueAppendRRv app a b = specAppendTable app a b := by
  cases a <;> cases b <;> rfl

theorem table_left_id (app : T → T → T) (x : Option T) :
    specAppendTable app none x = x := by
  cases x <;> rfl

theorem table_right_id (app : T → T → T) (x : Option T) :
    specAppendTable app x none = x := by
  cases x <;> rfl

theorem table_assoc (app : T → T → T)
    (hassoc : ∀ x y z, app (app x y) z = app x (app y z))
    (a b c : Option T) :
    specAppendTable app (specAppendTable app a b) c =
      specAppendTable app a (specAppendTable app b c) := by
  cases a <;> cases b <;> cases c <;> simp [specAppendTable, hassoc]

/-! ## Heap layer

A pointer is an optional index into the heap; a heap is the list of allocated cells, and a fresh
allocation appends a cell at index `Heap.length`. -/

abbrev Heap (T : Type) := List T

abbrev Ptr := Option Nat

/-- A pointer is valid for a heap when it is null or points at an allocated
cell. -/
def pValid (p : Ptr) (h : Heap T) : Bool :=
  match p with
  | some a => decide (a < h.length)
  | none => true

/-- Heap semantics of `monoid<std::shared_ptr<T>>::append`: when both
pointers are non-null, `make_shared` allocates a fresh cell holding the
combination; a single non-null side is returned as is (the same referent, no
allocation). -/
def sharedAppendH [Inhabited T] (app : T → T → T) (a b : Ptr) (h : Heap T) :
    Ptr × Heap T :=
  match a, b with
  | some ra, some rb =>
      (some h.length, h ++ [app (h.getD ra default) (h.getD rb default)])
  | some ra, none => (some ra, h)
  | none, b => (b, h)

/-- Result of a `unique_ptr` operation at the heap layer: the returned
pointer, the final states of the two pointer arguments, and the final heap. -/
structure URes (T : Type) where
  res : Ptr
  fa : Ptr
  fb : Ptr
  heap : Heap T
  deriving DecidableEq

/-- Heap semantics of the `(const&, const&)` overload of
`monoid<std::unique_ptr<T>>::append`: `make` and `dup` allocate fresh cells;
neither argument is moved. -/
def uniqueAppendLL [Inhabited T] (app : T → T → T) (a b : Ptr) (h : Heap T) :
    URes T :=
  match a, b with
  | some ra, some rb =>
      ⟨some h.length, some ra, some rb,
        h ++ [app (h.getD ra default) (h.getD rb default)]⟩
  | some ra, none => ⟨some h.length, some ra, none, h ++ [h.getD ra default]⟩
  | none, some rb => ⟨some h.length, none, some rb, h ++ [h.getD rb default]⟩
  | none, none => ⟨none, none, none, h⟩

/-- Heap semantics of the `(&&, const&)` overload: when both are non-null the
combination is written into `a`'s cell and `a` is moved into the result; when
only `b` is non-null it is duplicated (`a` is already null); otherwise `a` is
moved into the result (null stays null). -/
def uniqueAppendRL [Inhabited T] (app : T → T → T) (a b : Ptr) (h : Heap T) :
    URes T :=
  match a, b with
  | some ra, some rb =>
      ⟨some ra, none, some rb,
        h.set ra (app (h.getD ra default) (h.getD rb default))⟩
  | none, some rb => ⟨some h.length, none, some rb, h ++ [h.getD rb default]⟩
  | a, none => ⟨a, none, none, h⟩

/-- Heap semantics of the `(const&, &&)` overload: mirror image of the
`(&&, const&)` overload, writing into `b`'s cell. -/
def uniqueAppendLR [Inhabited T] (app : T → T → T) (a b : Ptr) (h : Heap T) :
    URes T :=
  match a, b with
  | some ra, some rb =>
      ⟨some rb, some ra, none,
        h.set rb (app (h.getD ra default) (h.getD rb default))⟩
  | some ra, none => ⟨some h.length, some ra, none, h ++ [h.getD ra default]⟩
  | none, b => ⟨b, none, none, h⟩

/-- Heap semantics of the `(&&, &&)` overload: when both are non-null the
combination (of both moved-out pointees) is written into `a`'s cell and `a`
is moved into the result, while the pointer `b` itself is not moved — its
cell keeps the moved-from value; otherwise the non-null side is moved out. -/
def uniqueAppendRR [Inhabited T] (app : T → T → T) (a b : Ptr) (h : Heap T) :
    URes T :=
  match a, b with
  | some ra, some rb =>
      ⟨some ra, none, some rb,
        h.set ra (app (h.getD ra default) (h.getD rb default))⟩
  | some ra, none => ⟨some ra, none, none, h⟩
  | none, b => ⟨b, none, none, h⟩

/-- Heap semantics of the in-place `&&` overload of
`monad<std::unique_ptr<T>>::map` (enabled when `U = T`): the pointee is
replaced by `f` of its old value in the same cell and the pointer is moved
into the result; the second component is the final state of the argument. -/
def uniqueMapInplace [Inhabited T] (f : T → T) (p : Ptr) (h : Heap T) :
    Ptr × Ptr × Heap T :=
  match p with
  | some rp => (some rp, none, h.set rp (f (h.getD rp default)))
  | none => (none, none, h)

/-- Heap semantics of `monoidA<std::shared_ptr<T>>::orDo`: a plain reference
copy of the chosen side, no allocation. -/
def sharedOrDoH (a b : Ptr) (h : Heap T) : Ptr × Heap T :=
  match a with
  | some ra => (some ra, h)
  | none => (b, h)

/-- Heap semantics of `_dtl::dup_unique`: a fresh copy of the pointee, or
null for a null pointer. -/
def dupUnique [Inhabited T] (p : Ptr) (h : Heap T) : Ptr × Heap T :=
  match p with
  | some rp => (some h.length, h ++ [h.getD rp default])
  | none => (none, h)

/-- Heap semantics of `monoidA<std::unique_ptr<T>>::orDo`:
`a ? dup_unique(a) : dup_unique(b)`. -/
def uniqueOrDoH [Inhabited T] (a b : Ptr) (h : Heap T) : Ptr × Heap T :=
  match a with
  | some _ => dupUnique a h
  | none => dupUnique b h

/-! ## Claim theorems -/

/-- C1: for both ownership kinds, every `append` overload follows the
spec's decision table (empty is absorbed, two non-empty operands combine
their pointees), and `id()` returns the empty value for both kinds. -/
theorem C1_append_decision_table (T : Type) (app : T → T → T)
    (a b : Option T) :
    sharedId T = none ∧ uniqueId T = none ∧
    sharedAppend app a b = specAppendTable app a b ∧
    uniqueAppendLLv app a b = specAppendTable app a b ∧
    uniqueAppendRLv app a b = specAppendTable app a b ∧
    uniqueAppendLRv app a b = specAppendTable app a b ∧
    uniqueAppendRRv app a b = specAppendTable app a b :=
  ⟨rfl, rfl, sharedAppend_eq_table app a b, uniqueAppendLLv_eq_table app a b,
    uniqueAppendRLv_eq_table app a b, uniqueAppendLRv_eq_table app a b,
    uniqueAppendRRv_eq_table app a b⟩

/-- C2: for each ownership kind (and, for the exclusive kind, for each of the
four `append` overloads) the monoid laws hold: `append(id(), x) = x`,
`append(x, id()) = x`, and associativity whenever the pointee's own `append`
is associative. -/
theorem C2_monoid_laws (T : Type) (app : T → T → T)
    (hassoc : ∀ x y z, app (app x y) z = app x (app y z)) :
    ((∀ x, sharedAppend app (sharedId T) x = x ∧
        sharedAppend app x (sharedId T) = x) ∧
      ∀ a b c, sharedAppend app (sharedAppend app a b) c =
        sharedAppend app a (sharedAppend app b c)) ∧
    ((∀ x, uniqueAppendLLv app (uniqueId T) x = x ∧
        uniqueAppendLLv app x (uniqueId T) = x) ∧
      ∀ a b c, uniqueAppendLLv app (uniqueAppendLLv app a b) c =
        uniqueAppendLLv app a (uniqueAppendLLv app b c)) ∧
    ((∀ x, uniqueAppendRLv app (uniqueId T) x = x ∧
        uniqueAppendRLv app x (uniqueId T) = x) ∧
      ∀ a b c, uniqueAppendRLv app (uniqueAppendRLv app a b) c =
        uniqueAppendRLv app a (uniqueAppendRLv app b c)) ∧
    ((∀ x, uniqueAppendLRv app (uniqueId T) x = x ∧
        uniqueAppendLRv app x (uniqueId T) = x) ∧
      ∀ a b c, uniqueAppendLRv app (uniqueAppendLRv app a b) c =
        uniqueAppendLRv app a (uniqueAppendLRv app b c)) ∧
    ((∀ x, uniqueAppendRRv app (uniqueId T) x = x ∧
        uniqueAppendRRv app x (uniqueId T) = x) ∧
      ∀ a b c, uniqueAppendRRv app (uniqueAppendRRv app a b) c =
        uniqueAppendRRv app a (uniqueAppendRRv app b c)) := by
  refine ⟨⟨fun x => ⟨?_, ?_⟩, fun a b c => ?_⟩,
    ⟨fun x => ⟨?_, ?_⟩, fun a b c => ?_⟩, ⟨fun x => ⟨?_, ?_⟩, fun a b c => ?_⟩,
    ⟨fun x => ⟨?_, ?_⟩, fun a b c => ?_⟩, ⟨fun x => ⟨?_, ?_⟩, fun a b c => ?_⟩⟩
  · rw [sharedAppend_eq_table]; exact table_left_id app x
  · rw [sharedAppend_eq_table]; exact table_right_id app x
  · simp only [sharedAppend_eq_table]; exact table_assoc app hassoc a b c
  · rw [uniqueAppendLLv_eq_table]; exact table_left_id app x
  · rw [uniqueAppendLLv_eq_table]; exact table_right_id app x
  · simp only [uniqueAppendLLv_eq_table]; exact table_assoc app hassoc a b c
  · rw [uniqueAppendRLv_eq_table]; exact table_left_id app x
  · rw [uniqueAppendRLv_eq_table]; exact table_right_id app x
  · simp only [uniqueAppendRLv_eq_table]; exact table_assoc app hassoc a b c
  · rw [uniqueAppendLRv_eq_table]; exact table_left_id app x
  · rw [uniqueAppendLRv_eq_table]; exact table_right_id app x
  · simp only [uniqueAppendLRv_eq_table]; exact table_assoc app hassoc a b c
  · rw [uniqueAppendRRv_eq_table]; exact table_left_id app x
  · rw [uniqueAppendRRv_eq_table]; exact table_right_id app x
  · simp only [uniqueAppendRRv_eq_table]; exact table_assoc app hassoc a b c

/-- Witness for C2: the laws at `T = Nat`, `app = Nat.add`, evaluated on
concrete operands. -/
theorem C2_monoid_laws_witness :
    (∀ x y z : Nat, Nat.add (Nat.add x y) z = Nat.add x (Nat.add y z)) ∧
    sharedAppend Nat.add (sharedAppend Nat.add (some 1) (some 2)) (some 3) =
      sharedAppend Nat.add (some 1) (sharedAppend Nat.add (some 2) (some 3)) :=
  ⟨fun x y z => Nat.add_assoc x y z,
    (C2_monoid_laws Nat Nat.add (fun x y z => Nat.add_assoc x y z)).1.2
      (some 1) (some 2) (some 3)⟩

/-- C3: for both ownership kinds, `bind(empty, f)` is empty and
`bind(holding x, f)` is exactly `f x`, for any `f` (so in particular for `f`
returning empty as well as non-empty results). -/
theorem C3_bind_pass_through (T U : Type) (f : T → Option U) (x : T) :
    sharedBind (none : Option T) f = none ∧ sharedBind (some x) f = f x ∧
    uniqueBind (none : Option T) f = none ∧ uniqueBind (some x) f = f x :=
  ⟨rfl, rfl, rfl, rfl⟩

/-- C4: for both ownership kinds, `join` and `apply` equal their bind-based
derivations and satisfy the truth tables: `join` flattens one level, and
`apply` combines two non-empty operands with function application while any
empty operand yields empty. -/
theorem C4_derived_join_apply (T A B : Type) (x : T) (f : A → B) (v : A)
    (outer : Option (Option T)) (wf : Option (A → B)) (wa : Option A) :
    (sharedJoin outer = sharedBind outer (fun m => m) ∧
      uniqueJoin outer = uniqueBind outer (fun m => m) ∧
      sharedApply wf wa = sharedBind wf (fun g => sharedMap g wa) ∧
      uniqueApply wf wa = uniqueBind wf (fun g => uniqueMap g wa)) ∧
    (sharedJoin (some (some x)) = some x ∧
      sharedJoin (some (none : Option T)) = none ∧
      sharedJoin (none : Option (Option T)) = none ∧
      uniqueJoin (some (some x)) = some x ∧
      uniqueJoin (some (none : Option T)) = none ∧
      uniqueJoin (none : Option (Option T)) = none) ∧
    (sharedApply (some f) (some v) = some (f v) ∧
      sharedApply (some f) (none : Option A) = none ∧
      sharedApply (none : Option (A → B)) (some v) = none ∧
      sharedApply (none : Option (A → B)) (none : Option A) = none ∧
      uniqueApply (some f) (some v) = some (f v) ∧
      uniqueApply (some f) (none : Option A) = none ∧
      uniqueApply (none : Option (A → B)) (some v) = none ∧
      uniqueApply (none : Option (A → B)) (none : Option A) = none) :=
  ⟨⟨rfl, rfl, rfl, rfl⟩, ⟨rfl, rfl, rfl, rfl, rfl, rfl⟩,
    ⟨rfl, rfl, rfl, rfl, rfl, rfl, rfl, rfl⟩⟩

/-- C9: for both ownership kinds, `foldl` and `foldr` return the seed on an
empty value and the single application `f(seed, x)` on a value holding
`x`. -/
theorem C9_folds (T U : Type) (fn : U → T → U) (z : U) (x : T) :
    sharedFoldl fn z (none : Option T) = z ∧
    sharedFoldl fn z (some x) = fn z x ∧
    sharedFoldr fn z (none : Option T) = z ∧
    sharedFoldr fn z (some x) = fn z x ∧
    uniqueFoldl fn z (none : Option T) = z ∧
    uniqueFoldl fn z (some x) = fn z x ∧
    uniqueFoldr fn z (none : Option T) = z ∧
    uniqueFoldr fn z (some x) = fn z x :=
  ⟨rfl, rfl, rfl, rfl, rfl, rfl, rfl, rfl⟩

/-- C10: for the shared kind, `append` with exactly one non-empty operand
returns the very same referent with the heap unchanged (no allocation), and
`append` of two empty operands returns the empty pointer. -/
theorem C10_shared_append_alias (T : Type) [Inhabited T] (app : T → T → T)
    (ra : Nat) (h : Heap T) :
    sharedAppendH app (some ra) none h = (some ra, h) ∧
    sharedAppendH app none (some ra) h = (some ra, h) ∧
    sharedAppendH app none none h = (none, h) :=
  ⟨rfl, rfl, rfl⟩

/-- C5: for both ownership kinds, `map` of an empty value is empty and `map`
of a value holding `x` holds `f x`; and the in-place rvalue specialization for
the exclusive kind reuses the existing cell: the result is the same slot, the
heap keeps its size (no allocation), and the cell now holds `f` of the old
value. -/
theorem C5_map (T U : Type) [Inhabited T] (g : T → U) (f : T → T) (x : T)
    (rp : Nat) (v : T) (hp : Heap T) (hrp : hp[rp]? = some v) :
    (sharedMap g (none : Option T) = none ∧
      sharedMap g (some x) = some (g x) ∧
      uniqueMap g (none : Option T) = none ∧
      uniqueMap g (some x) = some (g x)) ∧
    (uniqueMapInplace f (some rp) hp = (some rp, none, hp.set rp (f v)) ∧
      (hp.set rp (f v)).length = hp.length ∧
      (hp.set rp (f v))[rp]? = some (f v) ∧
      uniqueMapInplace f (none : Ptr) hp = (none, none, hp)) := by
  have hlt : rp < hp.length := (List.getElem?_eq_some.mp hrp).1
  refine ⟨⟨rfl, rfl, rfl, rfl⟩, ?_, List.length_set hp rp (f v),
    List.getElem?_set_eq_of_lt (f v) hlt, rfl⟩
  simp [uniqueMapInplace, List.getD, hrp]

/-- Witness for C5: the in-place map on the heap `[3, 4]` at address 0. -/
theorem C5_map_witness :
    ([3, 4] : Heap Nat)[0]? = some 3 ∧
    uniqueMapInplace Nat.succ (some 0) ([3, 4] : Heap Nat) =
      (some 0, none, [4, 4]) :=
  ⟨rfl, (C5_map Nat Nat Nat.succ Nat.succ 5 0 3 [3, 4] rfl).2.1⟩

/-- C6: for both ownership kinds `fail()` is empty and `orDo(a, b)` chooses
`a` when non-empty, else `b`; for the shared kind the result is a plain
reference copy with no allocation; for the exclusive kind the result is a
freshly allocated duplicate of the chosen side's pointee, never the original
slot, and empty only when both sides are empty. -/
theorem C6_fail_orElse (T : Type) [Inhabited T] (x : T) (b : Option T)
    (ra rb : Nat) (va vb : T) (pb : Ptr) (hp : Heap T)
    (hra : hp[ra]? = some va) (hrb : hp[rb]? = some vb) :
    (sharedFail T = none ∧ uniqueFail T = none) ∧
    (sharedOrDo (some x) b = some x ∧ sharedOrDo (none : Option T) b = b ∧
      uniqueOrDo (some x) b = some x ∧ uniqueOrDo (none : Option T) b = b) ∧
    (sharedOrDoH (some ra) pb hp = (some ra, hp) ∧
      sharedOrDoH none pb hp = (pb, hp)) ∧
    (uniqueOrDoH (some ra) pb hp = (some hp.length, hp ++ [va]) ∧
      (uniqueOrDoH (some ra) pb hp).1 ≠ some ra ∧
      uniqueOrDoH none (some rb) hp = (some hp.length, hp ++ [vb]) ∧
      (uniqueOrDoH none (some rb) hp).1 ≠ some rb ∧
      uniqueOrDoH none none hp = (none, hp)) := by
  have hlta : ra < hp.length := (List.getElem?_eq_some.mp hra).1
  have hltb : rb < hp.length := (List.getElem?_eq_some.mp hrb).1
  refine ⟨⟨rfl, rfl⟩, ⟨rfl, rfl, rfl, rfl⟩, ⟨rfl, rfl⟩, ?_, ?_, ?_, ?_, rfl⟩
  · simp [uniqueOrDoH, dupUnique, List.getD, hra]
  · simp only [uniqueOrDoH, dupUnique]
    intro heq
    have : hp.length = ra := Option.some_injective _ heq
    omega
  · simp [uniqueOrDoH, dupUnique, List.getD, hrb]
  · simp only [uniqueOrDoH, dupUnique]
    intro heq
    have : hp.length = rb := Option.some_injective _ heq
    omega

/-- Witness for C6: evaluated on the heap `[3, 4]` with both pointers
valid. -/
theorem C6_fail_orElse_witness :
    ([3, 4] : Heap Nat)[0]? = some 3 ∧ ([3, 4] : Heap Nat)[1]? = some 4 ∧
    uniqueOrDoH (some 0) (some 1) ([3, 4] : Heap Nat) = (some 2, [3, 4, 3]) :=
  ⟨rfl, rfl,
    (C6_fail_orElse Nat 7 (some 7) 0 1 3 4 (some 1) [3, 4] rfl rfl).2.2.2.1⟩

/-- C7: for the shared kind, `append` of two non-empty values allocates a
fresh cell holding the combination of the two pointees; the fresh cell is
distinct from both inputs, and overwriting either input's referent afterwards
leaves the result's referent unchanged. -/
theorem C7_shared_append_fresh (T : Type) [Inhabited T] (app : T → T → T)
    (ra rb : Nat) (va vb w : T) (hp : Heap T)
    (hra : hp[ra]? = some va) (hrb : hp[rb]? = some vb) :
    (sharedAppendH app (some ra) (some rb) hp).1 = some hp.length ∧
    hp.length ≠ ra ∧ hp.length ≠ rb ∧
    (sharedAppendH app (some ra) (some rb) hp).2[hp.length]? =
      some (app va vb) ∧
    ((sharedAppendH app (some ra) (some rb) hp).2.set ra w)[hp.length]? =
      some (app va vb) ∧
    ((sharedAppendH app (some ra) (some rb) hp).2.set rb w)[hp.length]? =
      some (app va vb) := by
  have hlta : ra < hp.length := (List.getElem?_eq_some.mp hra).1
  have hltb : rb < hp.length := (List.getElem?_eq_some.mp hrb).1
  have hgd : sharedAppendH app (some ra) (some rb) hp =
      (some hp.length, hp ++ [app va vb]) := by
    simp [sharedAppendH, List.getD, hra, hrb]
  rw [hgd]
  refine ⟨rfl, by omega, by omega, List.getElem?_concat_length hp _, ?_, ?_⟩
  · rw [List.getElem?_set_ne (by omega)]
    exact List.getElem?_concat_length hp _
  · rw [List.getElem?_set_ne (by omega)]
    exact List.getElem?_concat_length hp _

/-- Witness for C7: appending the two cells of the heap `[3, 4]` under
addition; the result lives in the fresh cell 2 and survives overwriting both
inputs. -/
theorem C7_shared_append_fresh_witness :
    ([3, 4] : Heap Nat)[0]? = some 3 ∧ ([3, 4] : Heap Nat)[1]? = some 4 ∧
    ((sharedAppendH Nat.add (some 0) (some 1) ([3, 4] : Heap Nat)).2.set 0
      9)[2]? = some 7 :=
  ⟨rfl, rfl,
    (C7_shared_append_fresh Nat Nat.add 0 1 3 4 9 [3, 4] rfl
      rfl).2.2.2.2.1⟩

/-- C8 counterexample: the `(&&, &&)` overload of `append` consumes both
arguments by ownership transfer, yet on two non-empty operands it leaves the
second argument non-empty (only its pointee is moved out; the owning pointer
itself is never moved), contradicting the claim that every operand consumed
by transfer is left empty. -/
theorem C8_counterexample :
    (uniqueAppendRR Nat.add (some 0) (some 1) ([3, 4] : Heap Nat)).fb ≠
      none := by
  decide

/-- C8 amended: operations of the exclusive kind that move the owning pointer
itself leave that pointer empty (the first operand of the rvalue appends, the
second operand of the `(const&, &&)` append, and the argument of the in-place
map); the `(&&, &&)` append leaves its second operand unchanged — hence
non-empty — when both operands are non-empty, and empty otherwise; and no
operation of either kind leaves an input in a state that is neither empty nor
a valid held value. -/
theorem C8_amended_moves (T : Type) [Inhabited T] (app : T → T → T)
    (f : T → T) (a b : Ptr) (hp : Heap T)
    (hva : pValid a hp = true) (hvb : pValid b hp = true) :
    ((uniqueAppendRL app a b hp).fa = none ∧
      (uniqueAppendLR app a b hp).fb = none ∧
      (uniqueAppendRR app a b hp).fa = none ∧
      (uniqueMapInplace f a hp).2.1 = none) ∧
    ((a = none ∨ b = none → (uniqueAppendRR app a b hp).fb = none) ∧
      (a ≠ none → b ≠ none → (uniqueAppendRR app a b hp).fb = b)) ∧
    (pValid (uniqueAppendLL app a b hp).fa (uniqueAppendLL app a b hp).heap =
        true ∧
      pValid (uniqueAppendLL app a b hp).fb (uniqueAppendLL app a b hp).heap =
        true ∧
      pValid (uniqueAppendRL app a b hp).fa (uniqueAppendRL app a b hp).heap =
        true ∧
      pValid (uniqueAppendRL app a b hp).fb (uniqueAppendRL app a b hp).heap =
        true ∧
      pValid (uniqueAppendLR app a b hp).fa (uniqueAppendLR app a b hp).heap =
        true ∧
      pValid (uniqueAppendLR app a b hp).fb (uniqueAppendLR app a b hp).heap =
        true ∧
      pValid (uniqueAppendRR app a b hp).fa (uniqueAppendRR app a b hp).heap =
        true ∧
      pValid (uniqueAppendRR app a b hp).fb (uniqueAppendRR app a b hp).heap =
        true ∧
      pValid (uniqueMapInplace f a hp).2.1 (uniqueMapInplace f a hp).2.2 =
        true ∧
      pValid a (sharedAppendH app a b hp).2 = true ∧
      pValid b (sharedAppendH app a b hp).2 = true) := by
  cases a <;> cases b <;>
    simp_all [uniqueAppendLL, uniqueAppendRL, uniqueAppendLR, uniqueAppendRR,
      uniqueMapInplace, sharedAppendH, pValid] <;>
    omega

/-- Witness for C8 amended: evaluated on the heap `[3, 4]` with both
pointers valid. -/
theorem C8_amended_moves_witness :
    pValid (some 0) ([3, 4] : Heap Nat) = true ∧
    pValid (some 1) ([3, 4] : Heap Nat) = true ∧
    (uniqueAppendRR Nat.add (some 0) (some 1) ([3, 4] : Heap Nat)).fa =
      none :=
  ⟨by decide, by decide,
    (C8_amended_moves Nat Nat.add Nat.succ (some 0) (some 1) [3, 4]
      (by decide) (by decide)).1.2.2.1⟩

end FTLMem
